import Mathlib

/-!
Shallow embedding of the confidence scoring engine
(src/clewcrew_common/confidence.py): the ConfidenceScore value object with
its field validation, the four context scoring functions, the normalize
helper and the weighted combination function.  Real numbers are modelled by
the rationals.  Construction of a ConfidenceScore follows pydantic v2 field
validation order: the Field bounds ge=0.0 and le=1.0 are enforced first and
raise a ValidationError on out-of-range input; the after-mode
validate_confidence clamp only runs on the values that survive, where it is
the identity.  Fallible operations return Except.
-/

/-- Tagged values stored in a ConfidenceScore metadata mapping. -/
inductive MetaVal where
  | str (s : String)
  | num (q : ℚ)
  | nat (n : Nat)
  | ratList (l : List ℚ)
deriving DecidableEq

/-- The `validate_confidence` after-mode field validator:
`max(0.0, min(1.0, v))`. -/
def validate_confidence (v : ℚ) : ℚ :=
  max 0 (min 1 v)

/-- Standardized confidence score with validation.  Every instance carries
the invariant enforced at construction: the value lies in [0, 1]. -/
structure ConfidenceScore where
  value : ℚ
  factors : List String
  metadata : List (String × MetaVal)
  valid : 0 ≤ value ∧ value ≤ 1

/-- Construction of a `ConfidenceScore`.  Pydantic v2 checks the Field
constraints ge=0.0 and le=1.0 before any after-mode validator, so an
out-of-range value raises a ValidationError; only then is the
`validate_confidence` clamp applied to the surviving in-range value. -/
def ConfidenceScore.make (value : ℚ) (factors : List String)
    (metadata : List (String × MetaVal)) : Except String ConfidenceScore :=
  if h : 0 ≤ value ∧ value ≤ 1 then
    .ok ⟨validate_confidence value, factors, metadata,
      ⟨le_max_left 0 _, max_le (by norm_num) (min_le_left 1 value)⟩⟩
  else
    .error "ValidationError"

/-- A delusion (finding) record: an optional confidence and an optional
severity tag, mirroring dictionary access with defaults. -/
structure Delusion where
  confidence : Option ℚ
  severity : Option String
deriving DecidableEq

/-- `delusion.get("confidence", 0.5)`. -/
def Delusion.getConfidence (d : Delusion) : ℚ :=
  d.confidence.getD 0.5

/-- `delusion.get("severity", "medium")`. -/
def Delusion.getSeverity (d : Delusion) : String :=
  d.severity.getD "medium"

/-- Severity adjustment applied to one delusion's confidence inside the
scoring loop: 1.2 for high, 0.8 for low, unchanged otherwise. -/
def adjustedConfidence (d : Delusion) : ℚ :=
  if d.getSeverity = "high" then d.getConfidence * 1.2
  else if d.getSeverity = "low" then d.getConfidence * 0.8
  else d.getConfidence

/-- Factor appended for one delusion inside the scoring loop. -/
def severityFactor (d : Delusion) : String :=
  if d.getSeverity = "high" then "high_severity_penalty"
  else if d.getSeverity = "low" then "low_severity_penalty"
  else "medium_severity"

/-- `ConfidenceCalculator.calculate_agent_confidence`; fallible because
construction of the result may raise. -/
def calculate_agent_confidence (delusions : List Delusion)
    (base_confidence : ℚ) : Except String ConfidenceScore :=
  if delusions.isEmpty then
    ConfidenceScore.make base_confidence ["no_delusions_found"]
      [("method", .str "agent_confidence"),
       ("base_confidence", .num base_confidence)]
  else
    let total_confidence := (delusions.map adjustedConfidence).sum
    let factors := delusions.map severityFactor
    let final_confidence := min (total_confidence / delusions.length) 1
    ConfidenceScore.make final_confidence factors
      [("method", .str "agent_confidence"),
       ("delusion_count", .nat delusions.length),
       ("average_delusion_confidence",
         .num (total_confidence / delusions.length))]

/-- `ConfidenceCalculator.calculate_recovery_confidence`. -/
def calculate_recovery_confidence (changes_made : List String)
    (base_confidence : ℚ) : Except String ConfidenceScore :=
  if changes_made.isEmpty then
    ConfidenceScore.make base_confidence ["no_changes_made"]
      [("method", .str "recovery_confidence"),
       ("base_confidence", .num base_confidence)]
  else
    let confidence_increase := min 0.4 ((changes_made.length : ℚ) * 0.1)
    let final_confidence := min 0.9 (base_confidence + confidence_increase)
    ConfidenceScore.make final_confidence
      ["changes_successful", "multiple_changes"]
      [("method", .str "recovery_confidence"),
       ("changes_count", .nat changes_made.length),
       ("confidence_increase", .num confidence_increase)]

/-- `ConfidenceCalculator.calculate_validation_confidence`. -/
def calculate_validation_confidence (issues : List String)
    (base_confidence : ℚ) : Except String ConfidenceScore :=
  if issues.isEmpty then
    ConfidenceScore.make base_confidence ["no_issues_found"]
      [("method", .str "validation_confidence"),
       ("base_confidence", .num base_confidence)]
  else
    let confidence_decrease := min 0.8 ((issues.length : ℚ) * 0.1)
    let final_confidence := max 0.1 (base_confidence - confidence_decrease)
    ConfidenceScore.make final_confidence
      ["issues_found", "multiple_issues"]
      [("method", .str "validation_confidence"),
       ("issues_count", .nat issues.length),
       ("confidence_decrease", .num confidence_decrease)]

/-- `ConfidenceCalculator.calculate_workflow_confidence`. -/
def calculate_workflow_confidence (steps_completed total_steps : Nat)
    (step_confidence_scores : List ℚ) : Except String ConfidenceScore :=
  if total_steps = 0 then
    ConfidenceScore.make 0 ["no_steps_defined"]
      [("method", .str "workflow_confidence")]
  else
    let completion_ratio : ℚ := (steps_completed : ℚ) / (total_steps : ℚ)
    let avg_step_confidence : ℚ :=
      if step_confidence_scores.isEmpty then 0.5
      else step_confidence_scores.sum / (step_confidence_scores.length : ℚ)
    let final_confidence :=
      completion_ratio * 0.6 + avg_step_confidence * 0.4
    let factors :=
      (if completion_ratio = 1 then ["workflow_completed"]
       else if completion_ratio > 0.5 then ["workflow_partially_completed"]
       else ["workflow_early_stage"]) ++
      (if avg_step_confidence > 0.8 then ["high_step_confidence"]
       else if avg_step_confidence < 0.3 then ["low_step_confidence"]
       else [])
    ConfidenceScore.make final_confidence factors
      [("method", .str "workflow_confidence"),
       ("completion_ratio", .num completion_ratio),
       ("average_step_confidence", .num avg_step_confidence),
       ("steps_completed", .nat steps_completed),
       ("total_steps", .nat total_steps)]

/-- `ConfidenceCalculator.normalize_confidence`: a plain staticmethod, no
pydantic validation involved. -/
def normalize_confidence (confidence : ℚ) : ℚ :=
  max 0 (min 1 confidence)

/-- `ConfidenceCalculator.combine_confidence_scores`; the `ValueError` on
mismatched lengths becomes one `Except.error`, and construction of the
combined score may itself raise a ValidationError. -/
def combine_confidence_scores (scores : List ConfidenceScore)
    (weights : Option (List ℚ)) : Except String ConfidenceScore :=
  if scores.isEmpty then
    ConfidenceScore.make 0 ["no_scores_provided"]
      [("method", .str "combined_confidence")]
  else
    let ws := weights.getD
      (List.replicate scores.length (1 / (scores.length : ℚ)))
    if ws.length ≠ scores.length then
      .error "Number of weights must match number of scores"
    else
      let weight_sum := ws.sum
      let nws := if weight_sum ≠ 0 then ws.map (fun w => w / weight_sum)
                 else ws
      let combined_value :=
        (List.zipWith (fun s w => s.value * w) scores nws).sum
      let all_factors := scores.foldl (fun acc s => acc ++ s.factors) []
      ConfidenceScore.make combined_value all_factors
        [("method", .str "combined_confidence"),
         ("score_count", .nat scores.length),
         ("weights", .ratList nws),
         ("individual_scores", .ratList (scores.map (fun s => s.value)))]

/-! Basic lemmas about the validator and construction. -/

lemma validate_confidence_nonneg (v : ℚ) : 0 ≤ validate_confidence v :=
  le_max_left 0 _

lemma validate_confidence_le_one (v : ℚ) : validate_confidence v ≤ 1 :=
  max_le (by norm_num) (min_le_left 1 v)

lemma validate_confidence_of_one_lt {v : ℚ} (h : 1 < v) :
    validate_confidence v = 1 := by
  unfold validate_confidence
  rw [min_eq_left h.le, max_eq_right]
  norm_num

lemma validate_confidence_of_lt_zero {v : ℚ} (h : v < 0) :
    validate_confidence v = 0 := by
  unfold validate_confidence
  rw [min_eq_right (h.le.trans (by norm_num)), max_eq_left h.le]

lemma validate_confidence_eq_self {v : ℚ} (h0 : 0 ≤ v) (h1 : v ≤ 1) :
    validate_confidence v = v := by
  unfold validate_confidence
  rw [min_eq_right h1, max_eq_right h0]

lemma make_ok_of_bounds (v : ℚ) (f : List String)
    (m : List (String × MetaVal)) (h0 : 0 ≤ v) (h1 : v ≤ 1) :
    ∃ s, ConfidenceScore.make v f m = .ok s ∧ s.value = v ∧
      s.factors = f ∧ s.metadata = m := by
  refine ⟨⟨validate_confidence v, f, m,
    ⟨validate_confidence_nonneg v, validate_confidence_le_one v⟩⟩, ?_,
    validate_confidence_eq_self h0 h1, rfl, rfl⟩
  rw [ConfidenceScore.make, dif_pos ⟨h0, h1⟩]

lemma make_error_of_out {v : ℚ} (f : List String)
    (m : List (String × MetaVal)) (h : ¬(0 ≤ v ∧ v ≤ 1)) :
    ConfidenceScore.make v f m = .error "ValidationError" := by
  rw [ConfidenceScore.make, dif_neg h]

lemma make_ok_or_validation_error (v : ℚ) (f : List String)
    (m : List (String × MetaVal)) :
    (∃ s, ConfidenceScore.make v f m = .ok s) ∨
      ConfidenceScore.make v f m = .error "ValidationError" := by
  by_cases h : 0 ≤ v ∧ v ≤ 1
  · obtain ⟨s, hs, -, -, -⟩ := make_ok_of_bounds v f m h.1 h.2
    exact Or.inl ⟨s, hs⟩
  · exact Or.inr (make_error_of_out f m h)

lemma make_ok_fields {v : ℚ} {f : List String}
    {m : List (String × MetaVal)} {s : ConfidenceScore}
    (h : ConfidenceScore.make v f m = .ok s) :
    s.value = validate_confidence v ∧ s.factors = f ∧ s.metadata = m := by
  rw [ConfidenceScore.make] at h
  split at h
  · injection h with h2
    subst h2
    exact ⟨rfl, rfl, rfl⟩
  · exact absurd h (by simp)

/-! Helper lemmas about lists used by the combination function. -/

lemma isEmpty_false_of_ne_nil {α : Type} {l : List α} (h : l ≠ []) :
    l.isEmpty = false := by
  simpa [List.isEmpty_iff] using h

lemma foldl_append_factors (l : List ConfidenceScore) :
    ∀ acc : List String,
      l.foldl (fun a s => a ++ s.factors) acc
        = acc ++ (l.map (fun s => s.factors)).flatten := by
  induction l with
  | nil => intro acc; simp
  | cons s rest ih =>
    intro acc
    simp [List.foldl_cons, ih (acc ++ s.factors), List.append_assoc]

lemma sum_map_div (l : List ℚ) (c : ℚ) :
    (l.map (fun x => x / c)).sum = l.sum / c := by
  induction l with
  | nil => simp
  | cons x rest ih => simp [ih, add_div]

/-- Reduction of the combination function on a non-empty score list and a
weight list of matching length: the result is the construction of the
weighted combination. -/
lemma combine_eq_of_len (scores : List ConfidenceScore)
    (hne : scores ≠ []) (ws : List ℚ) (hlen : ws.length = scores.length) :
    combine_confidence_scores scores (some ws)
      = ConfidenceScore.make
          ((List.zipWith (fun s w => s.value * w) scores
            (if ws.sum ≠ 0 then ws.map (fun w => w / ws.sum) else ws)).sum)
          (scores.foldl (fun acc s => acc ++ s.factors) [])
          [("method", .str "combined_confidence"),
           ("score_count", .nat scores.length),
           ("weights", .ratList
             (if ws.sum ≠ 0 then ws.map (fun w => w / ws.sum) else ws)),
           ("individual_scores",
             .ratList (scores.map (fun s => s.value)))] := by
  rw [combine_confidence_scores,
    if_neg (by simp [isEmpty_false_of_ne_nil hne])]
  simp only [Option.getD_some]
  rw [if_neg (by simp [hlen])]

lemma make_ne_len_error (v : ℚ) (f : List String)
    (m : List (String × MetaVal)) :
    ConfidenceScore.make v f m
      ≠ .error "Number of weights must match number of scores" := by
  rcases make_ok_or_validation_error v f m with ⟨s, hs⟩ | hs <;>
    rw [hs] <;> simp

/-- C1 is contradicted by the program: pydantic v2 enforces the Field
bounds ge=0.0 and le=1.0 before the after-mode clamp validator, so
construction given an out-of-range value raises a ValidationError rather
than clamping — at 1.5, at -0.5, and for workflow scoring with
steps_completed greater than total_steps, whose unclamped arithmetic
result 1.4 reaches construction. -/
theorem construction_rejects_out_of_range :
    ConfidenceScore.make 1.5 [] [] = .error "ValidationError" ∧
    ConfidenceScore.make (-0.5) [] [] = .error "ValidationError" ∧
    calculate_workflow_confidence 2 1 [] = .error "ValidationError" := by
  refine ⟨make_error_of_out [] [] (by norm_num),
    make_error_of_out [] [] (by norm_num), ?_⟩
  simp only [calculate_workflow_confidence]
  norm_num
  exact make_error_of_out _ _ (by norm_num)

/-- C8: normalize_confidence clamps every rational into [0, 1], is the
identity on values already in [0, 1], is idempotent, and sends 1.5 to 1.0
and -0.5 to 0.0. -/
theorem normalize_confidence_spec :
    (∀ x, 0 ≤ normalize_confidence x ∧ normalize_confidence x ≤ 1) ∧
    (∀ x, 0 ≤ x → x ≤ 1 → normalize_confidence x = x) ∧
    (∀ x, normalize_confidence (normalize_confidence x)
      = normalize_confidence x) ∧
    normalize_confidence 1.5 = 1 ∧ normalize_confidence (-0.5) = 0 := by
  have hval : ∀ x : ℚ, normalize_confidence x = validate_confidence x :=
    fun x => rfl
  have hid : ∀ x : ℚ, 0 ≤ x → x ≤ 1 → normalize_confidence x = x := by
    intro x h0 h1
    rw [hval, validate_confidence_eq_self h0 h1]
  refine ⟨fun x => ⟨?_, ?_⟩, hid, fun x => ?_, ?_, ?_⟩
  · rw [hval]; exact validate_confidence_nonneg x
  · rw [hval]; exact validate_confidence_le_one x
  · exact hid _ (by rw [hval]; exact validate_confidence_nonneg x)
      (by rw [hval]; exact validate_confidence_le_one x)
  · rw [hval, validate_confidence_of_one_lt (by norm_num)]
  · rw [hval, validate_confidence_of_lt_zero (by norm_num)]

/-- Witness for C8: the identity clause applied at the in-range input 0.5. -/
theorem normalize_confidence_spec_witness :
    normalize_confidence 0.5 = 0.5 :=
  normalize_confidence_spec.2.1 0.5 (by norm_num) (by norm_num)

/-- C10: a finding whose severity tag is any string other than "high" or
"low" — including unrecognized tags such as "critical" or an absent tag —
is treated as medium severity: its confidence is multiplied by 1.0 and the
factor "medium_severity" is recorded for it, so whenever such a
single-finding call returns a score its factors are ["medium_severity"]. -/
theorem unknown_severity_treated_as_medium :
    ∀ (c : Option ℚ) (s : String), s ≠ "high" → s ≠ "low" →
      adjustedConfidence ⟨c, some s⟩ = c.getD 0.5 * 1 ∧
      severityFactor ⟨c, some s⟩ = "medium_severity" ∧
      adjustedConfidence ⟨c, none⟩ = c.getD 0.5 * 1 ∧
      severityFactor ⟨c, none⟩ = "medium_severity" ∧
      (∀ sc, calculate_agent_confidence [⟨c, some s⟩] 0.9 = .ok sc →
        sc.factors = ["medium_severity"]) := by
  intro c s hh hl
  have hsev : Delusion.getSeverity ⟨c, some s⟩ = s := rfl
  have hnone : Delusion.getSeverity ⟨c, none⟩ = "medium" := rfl
  refine ⟨?_, ?_, ?_, ?_, ?_⟩
  · simp [adjustedConfidence, hsev, hh, hl, Delusion.getConfidence]
  · simp [severityFactor, hsev, hh, hl]
  · simp [adjustedConfidence, hnone, Delusion.getConfidence]
  · simp [severityFactor, hnone]
  · intro sc h
    simp only [calculate_agent_confidence, List.isEmpty_cons,
      Bool.false_eq_true, if_false] at h
    rw [(make_ok_fields h).2.1]
    simp [severityFactor, hsev, hh, hl]

/-- Witness for C10 at the unrecognized tag "critical" with confidence 0.7. -/
theorem unknown_severity_treated_as_medium_witness :
    adjustedConfidence ⟨some 0.7, some "critical"⟩
      = (some (0.7 : ℚ)).getD 0.5 * 1 ∧
    severityFactor ⟨some 0.7, some "critical"⟩ = "medium_severity" ∧
    (∀ sc, calculate_agent_confidence [⟨some 0.7, some "critical"⟩] 0.9
        = .ok sc → sc.factors = ["medium_severity"]) :=
  ⟨(unknown_severity_treated_as_medium (some 0.7) "critical"
      (by decide) (by decide)).1,
   (unknown_severity_treated_as_medium (some 0.7) "critical"
      (by decide) (by decide)).2.1,
   (unknown_severity_treated_as_medium (some 0.7) "critical"
      (by decide) (by decide)).2.2.2.2⟩

/-- C3 fails as stated: on the claim's own example the code produces the
value 0.78 (= min((0.8*1.2 + 0.6*1.0)/2, 1.0)), not 0.66. -/
theorem agent_example_value_is_078_not_066 :
    ((calculate_agent_confidence
      [⟨some 0.8, some "high"⟩, ⟨some 0.6, some "medium"⟩] 0.9).toOption.map
        (fun s => s.value)) = some 0.78 ∧ (0.78 : ℚ) ≠ 0.66 := by
  constructor
  · norm_num +decide [calculate_agent_confidence, ConfidenceScore.make,
      validate_confidence, adjustedConfidence, severityFactor,
      Delusion.getConfidence, Delusion.getSeverity, Except.toOption]
  · norm_num

/-- C3 (amended): the per-finding multipliers and factors are as claimed
(1.2 for high, 0.8 for low, 1.0 otherwise, default confidence 0.5); for a
non-empty findings list whose average adjusted confidence is non-negative
the returned score has value min(sum of adjusted confidences / count, 1.0)
with the per-finding factors in input order, while a negative average
makes construction raise a ValidationError and no score is produced; the
empty list returns base_confidence with factors ["no_delusions_found"]
when it lies in [0, 1]; on the cited example the value is 0.78 (not 0.66)
with factors ["high_severity_penalty", "medium_severity"]. -/
theorem agent_confidence_spec :
    (∀ c : ℚ, adjustedConfidence ⟨some c, some "high"⟩ = c * 1.2) ∧
    (∀ c : ℚ, adjustedConfidence ⟨some c, some "low"⟩ = c * 0.8) ∧
    (∀ c : ℚ, adjustedConfidence ⟨some c, some "medium"⟩ = c) ∧
    (∀ s : String, adjustedConfidence ⟨none, some s⟩
      = adjustedConfidence ⟨some 0.5, some s⟩) ∧
    (∀ ds b, ds ≠ [] →
      0 ≤ (ds.map adjustedConfidence).sum / (ds.length : ℚ) →
      ∃ s, calculate_agent_confidence ds b = .ok s ∧
        s.value
          = min ((ds.map adjustedConfidence).sum / (ds.length : ℚ)) 1 ∧
        s.factors = ds.map severityFactor) ∧
    (∀ ds b, ds ≠ [] →
      (ds.map adjustedConfidence).sum / (ds.length : ℚ) < 0 →
      calculate_agent_confidence ds b = .error "ValidationError") ∧
    (∀ b, 0 ≤ b → b ≤ 1 →
      ∃ s, calculate_agent_confidence [] b = .ok s ∧ s.value = b ∧
        s.factors = ["no_delusions_found"]) ∧
    (((calculate_agent_confidence
        [⟨some 0.8, some "high"⟩, ⟨some 0.6, some "medium"⟩] 0.9).toOption.map
          (fun s => s.value)) = some 0.78 ∧
      ((calculate_agent_confidence
        [⟨some 0.8, some "high"⟩, ⟨some 0.6, some "medium"⟩] 0.9).toOption.map
          (fun s => s.factors))
        = some ["high_severity_penalty", "medium_severity"]) := by
  refine ⟨fun c => by norm_num +decide [adjustedConfidence,
      Delusion.getSeverity, Delusion.getConfidence],
    fun c => by norm_num +decide [adjustedConfidence,
      Delusion.getSeverity, Delusion.getConfidence],
    fun c => by norm_num +decide [adjustedConfidence,
      Delusion.getSeverity, Delusion.getConfidence],
    fun s => by simp [adjustedConfidence,
      Delusion.getSeverity, Delusion.getConfidence],
    fun ds b hds ht => ?_, fun ds b hds ht => ?_, fun b h0 h1 => ?_, ?_, ?_⟩
  · rw [calculate_agent_confidence,
      if_neg (by simp [isEmpty_false_of_ne_nil hds])]
    obtain ⟨s, hs, hval, hfac, -⟩ := make_ok_of_bounds _ _ _
      (le_min ht zero_le_one) (min_le_right _ 1)
    exact ⟨s, hs, hval, hfac⟩
  · rw [calculate_agent_confidence,
      if_neg (by simp [isEmpty_false_of_ne_nil hds])]
    exact make_error_of_out _ _
      (fun hcon => absurd (hcon.1.trans (min_le_left _ _)) (not_le.mpr ht))
  · obtain ⟨s, hs, hval, hfac, -⟩ :=
      make_ok_of_bounds b ["no_delusions_found"]
        [("method", .str "agent_confidence"),
         ("base_confidence", .num b)] h0 h1
    exact ⟨s, hs, hval, hfac⟩
  · norm_num +decide [calculate_agent_confidence, ConfidenceScore.make,
      validate_confidence, adjustedConfidence, severityFactor,
      Delusion.getConfidence, Delusion.getSeverity, Except.toOption]
  · norm_num +decide [calculate_agent_confidence, ConfidenceScore.make,
      validate_confidence, adjustedConfidence, severityFactor,
      Delusion.getConfidence, Delusion.getSeverity, Except.toOption]

/-- Witness for C3 (amended): the non-empty clause instantiated on a single
low-severity finding, whose average adjusted confidence 0.8 is
non-negative. -/
theorem agent_confidence_spec_witness :
    ∃ s, calculate_agent_confidence [⟨some 1, some "low"⟩] 0.9 = .ok s ∧
      s.value = min ((([(⟨some 1, some "low"⟩ : Delusion)].map
          adjustedConfidence).sum)
        / (([(⟨some 1, some "low"⟩ : Delusion)].length : ℚ))) 1 ∧
      s.factors = [(⟨some 1, some "low"⟩ : Delusion)].map severityFactor :=
  agent_confidence_spec.2.2.2.2.1 [⟨some 1, some "low"⟩] 0.9 (by simp)
    (by norm_num +decide [adjustedConfidence, Delusion.getSeverity,
      Delusion.getConfidence])

/-- C5 fails as stated: with base_confidence -1 and one change the claimed
result min(0.9, -1 + min(0.4, 0.1)) is -0.9, and there the program raises
a ValidationError at construction instead of returning a score. -/
theorem recovery_negative_base_validation_error :
    calculate_recovery_confidence ["c1"] (-1) = .error "ValidationError" ∧
    min (0.9 : ℚ) (-1 + min 0.4 ((1 : ℚ) * 0.1)) = -0.9 := by
  refine ⟨?_, by norm_num⟩
  simp only [calculate_recovery_confidence]
  norm_num
  exact make_error_of_out _ _ (by norm_num)

/-- C5 (amended): for a non-empty changes list of length n, when
min(0.9, base_confidence + min(0.4, n*0.1)) is non-negative the returned
score has exactly that value with factors
["changes_successful", "multiple_changes"] even for a single change; when
that quantity is negative, construction raises a ValidationError and no
score is produced; the empty list returns base_confidence with factors
["no_changes_made"] when it lies in [0, 1]; with
["fix1","fix2","fix3"] and base 0.5 the value is 0.8. -/
theorem recovery_confidence_spec :
    (∀ cs b, cs ≠ [] →
      0 ≤ min 0.9 (b + min 0.4 ((cs.length : ℚ) * 0.1)) →
      ∃ s, calculate_recovery_confidence cs b = .ok s ∧
        s.value = min 0.9 (b + min 0.4 ((cs.length : ℚ) * 0.1)) ∧
        s.factors = ["changes_successful", "multiple_changes"]) ∧
    (∀ cs b, cs ≠ [] →
      min 0.9 (b + min 0.4 ((cs.length : ℚ) * 0.1)) < 0 →
      calculate_recovery_confidence cs b = .error "ValidationError") ∧
    (∀ b, 0 ≤ b → b ≤ 1 →
      ∃ s, calculate_recovery_confidence [] b = .ok s ∧ s.value = b ∧
        s.factors = ["no_changes_made"]) ∧
    ((calculate_recovery_confidence ["fix1", "fix2", "fix3"] 0.5).toOption.map
      (fun s => s.value)) = some 0.8 := by
  refine ⟨fun cs b hcs h0 => ?_, fun cs b hcs hlt => ?_,
    fun b h0 h1 => ?_, ?_⟩
  · rw [calculate_recovery_confidence,
      if_neg (by simp [isEmpty_false_of_ne_nil hcs])]
    obtain ⟨s, hs, hval, hfac, -⟩ := make_ok_of_bounds _ _ _ h0
      ((min_le_left _ _).trans (by norm_num))
    exact ⟨s, hs, hval, hfac⟩
  · rw [calculate_recovery_confidence,
      if_neg (by simp [isEmpty_false_of_ne_nil hcs])]
    exact make_error_of_out _ _ (fun hcon => absurd hcon.1 (not_le.mpr hlt))
  · obtain ⟨s, hs, hval, hfac, -⟩ :=
      make_ok_of_bounds b ["no_changes_made"]
        [("method", .str "recovery_confidence"),
         ("base_confidence", .num b)] h0 h1
    exact ⟨s, hs, hval, hfac⟩
  · norm_num [calculate_recovery_confidence, ConfidenceScore.make,
      validate_confidence, Except.toOption]

/-- Witness for C5 (amended): the non-empty clause instantiated on a single
change with base 0.5, where the computed value 0.6 is non-negative. -/
theorem recovery_confidence_spec_witness :
    ∃ s, calculate_recovery_confidence ["a"] 0.5 = .ok s ∧
      s.value = min 0.9 (0.5 + min 0.4 (((["a"] : List String).length : ℚ)
        * 0.1)) ∧
      s.factors = ["changes_successful", "multiple_changes"] :=
  recovery_confidence_spec.1 ["a"] 0.5 (by simp) (by norm_num)

/-- C6 fails as stated: with base_confidence 5 and one issue the claimed
result max(0.1, 5 - min(0.8, 0.1)) is 4.9, and there the program raises a
ValidationError at construction instead of returning a score. -/
theorem validation_large_base_validation_error :
    calculate_validation_confidence ["i1"] 5 = .error "ValidationError" ∧
    max (0.1 : ℚ) (5 - min 0.8 ((1 : ℚ) * 0.1)) = 4.9 := by
  refine ⟨?_, by norm_num⟩
  simp only [calculate_validation_confidence]
  norm_num
  exact make_error_of_out _ _ (by norm_num)

/-- C6 (amended): for a non-empty issues list of length n, when
max(0.1, base_confidence - min(0.8, n*0.1)) is at most 1 the returned
score has exactly that value with factors
["issues_found", "multiple_issues"] even for a single issue; when that
quantity exceeds 1, construction raises a ValidationError and no score is
produced; the empty list returns base_confidence with factors
["no_issues_found"] when it lies in [0, 1]; with two issues and base 0.9
the value is 0.7. -/
theorem validation_confidence_spec :
    (∀ l b, l ≠ [] →
      max 0.1 (b - min 0.8 ((l.length : ℚ) * 0.1)) ≤ 1 →
      ∃ s, calculate_validation_confidence l b = .ok s ∧
        s.value = max 0.1 (b - min 0.8 ((l.length : ℚ) * 0.1)) ∧
        s.factors = ["issues_found", "multiple_issues"]) ∧
    (∀ l b, l ≠ [] →
      1 < max 0.1 (b - min 0.8 ((l.length : ℚ) * 0.1)) →
      calculate_validation_confidence l b = .error "ValidationError") ∧
    (∀ b, 0 ≤ b → b ≤ 1 →
      ∃ s, calculate_validation_confidence [] b = .ok s ∧ s.value = b ∧
        s.factors = ["no_issues_found"]) ∧
    ((calculate_validation_confidence ["issue1", "issue2"] 0.9).toOption.map
      (fun s => s.value)) = some 0.7 := by
  refine ⟨fun l b hl h1 => ?_, fun l b hl hgt => ?_,
    fun b h0 h1 => ?_, ?_⟩
  · rw [calculate_validation_confidence,
      if_neg (by simp [isEmpty_false_of_ne_nil hl])]
    obtain ⟨s, hs, hval, hfac, -⟩ := make_ok_of_bounds _ _ _
      (((by norm_num : (0 : ℚ) ≤ 0.1)).trans (le_max_left _ _)) h1
    exact ⟨s, hs, hval, hfac⟩
  · rw [calculate_validation_confidence,
      if_neg (by simp [isEmpty_false_of_ne_nil hl])]
    exact make_error_of_out _ _ (fun hcon => absurd hcon.2 (not_le.mpr hgt))
  · obtain ⟨s, hs, hval, hfac, -⟩ :=
      make_ok_of_bounds b ["no_issues_found"]
        [("method", .str "validation_confidence"),
         ("base_confidence", .num b)] h0 h1
    exact ⟨s, hs, hval, hfac⟩
  · norm_num [calculate_validation_confidence, ConfidenceScore.make,
      validate_confidence, Except.toOption]

/-- Witness for C6 (amended): the non-empty clause instantiated on a single
issue with base 0.9, where the computed value 0.8 is at most 1. -/
theorem validation_confidence_spec_witness :
    ∃ s, calculate_validation_confidence ["x"] 0.9 = .ok s ∧
      s.value = max 0.1 (0.9 - min 0.8 (((["x"] : List String).length : ℚ)
        * 0.1)) ∧
      s.factors = ["issues_found", "multiple_issues"] :=
  validation_confidence_spec.1 ["x"] 0.9 (by simp) (by norm_num)

/-- C7 fails as stated: with steps_completed = 2 and total_steps = 1 the
claimed result (2/1)*0.6 + 0.5*0.4 is 1.4, and there the program raises a
ValidationError at construction instead of returning a score. -/
theorem workflow_overcompletion_validation_error :
    calculate_workflow_confidence 2 1 [] = .error "ValidationError" ∧
    ((2 : ℚ) / 1) * 0.6 + 0.5 * 0.4 = 1.4 := by
  refine ⟨?_, by norm_num⟩
  simp only [calculate_workflow_confidence]
  norm_num
  exact make_error_of_out _ _ (by norm_num)

/-- C7 (amended): total_steps = 0 yields value 0.0 with factors
["no_steps_defined"]; otherwise, when the quantity
(steps_completed/total_steps)*0.6 + avg*0.4 — with avg the mean of the
step scores or 0.5 for an empty list — lies in [0, 1], the returned score
has exactly that value and its factors are one completion-tier factor
(workflow_completed when the ratio equals 1, workflow_partially_completed
when it exceeds 0.5, otherwise workflow_early_stage) followed by at most
one confidence-tier factor (high_step_confidence when avg > 0.8,
low_step_confidence when avg < 0.3, none otherwise); when that quantity
leaves [0, 1], construction raises a ValidationError and no score is
produced. -/
theorem workflow_confidence_spec :
    (∀ (sc : Nat) (l : List ℚ),
      ∃ s, calculate_workflow_confidence sc 0 l = .ok s ∧
      s.value = 0 ∧ s.factors = ["no_steps_defined"]) ∧
    (∀ (sc ts : Nat) (l : List ℚ), ts ≠ 0 →
      0 ≤ ((sc : ℚ) / (ts : ℚ)) * 0.6 +
        (if l = [] then 0.5 else l.sum / (l.length : ℚ)) * 0.4 →
      ((sc : ℚ) / (ts : ℚ)) * 0.6 +
        (if l = [] then 0.5 else l.sum / (l.length : ℚ)) * 0.4 ≤ 1 →
      ∃ s, calculate_workflow_confidence sc ts l = .ok s ∧
        s.value = ((sc : ℚ) / (ts : ℚ)) * 0.6 +
          (if l = [] then 0.5 else l.sum / (l.length : ℚ)) * 0.4 ∧
        s.factors
          = (if ((sc : ℚ) / (ts : ℚ)) = 1 then ["workflow_completed"]
             else if ((sc : ℚ) / (ts : ℚ)) > 0.5 then
               ["workflow_partially_completed"]
             else ["workflow_early_stage"]) ++
            (if (if l = [] then 0.5 else l.sum / (l.length : ℚ)) > 0.8 then
               ["high_step_confidence"]
             else if (if l = [] then 0.5
                 else l.sum / (l.length : ℚ)) < 0.3 then
               ["low_step_confidence"]
             else [])) ∧
    (∀ (sc ts : Nat) (l : List ℚ), ts ≠ 0 →
      ¬(0 ≤ ((sc : ℚ) / (ts : ℚ)) * 0.6 +
          (if l = [] then 0.5 else l.sum / (l.length : ℚ)) * 0.4 ∧
        ((sc : ℚ) / (ts : ℚ)) * 0.6 +
          (if l = [] then 0.5 else l.sum / (l.length : ℚ)) * 0.4 ≤ 1) →
      calculate_workflow_confidence sc ts l = .error "ValidationError") := by
  have havg : ∀ l : List ℚ,
      (if l.isEmpty then (0.5 : ℚ) else l.sum / (l.length : ℚ))
        = if l = [] then (0.5 : ℚ) else l.sum / (l.length : ℚ) := by
    intro l
    by_cases hl : l = [] <;> simp [hl]
  refine ⟨fun sc l => ?_, fun sc ts l hts h0 h1 => ?_,
    fun sc ts l hts hout => ?_⟩
  · obtain ⟨s, hs, hval, hfac, -⟩ :=
      make_ok_of_bounds 0 ["no_steps_defined"]
        [("method", .str "workflow_confidence")] le_rfl zero_le_one
    refine ⟨s, ?_, hval, hfac⟩
    rw [calculate_workflow_confidence, if_pos rfl]
    exact hs
  · rw [calculate_workflow_confidence, if_neg hts]
    simp only [havg]
    obtain ⟨s, hs, hval, hfac, -⟩ := make_ok_of_bounds _ _ _ h0 h1
    exact ⟨s, hs, hval, hfac⟩
  · rw [calculate_workflow_confidence, if_neg hts]
    simp only [havg]
    exact make_error_of_out _ _ hout

/-- Witness for C7 (amended): the in-range clause at 3 of 5 steps with step
scores [0.8, 0.9, 0.7], where the value is 0.68 and the only factor is
workflow_partially_completed. -/
theorem workflow_confidence_spec_witness :
    (∃ s, calculate_workflow_confidence 3 5 [0.8, 0.9, 0.7] = .ok s ∧
      s.value = ((3 : ℚ) / ((5 : Nat) : ℚ)) * 0.6 +
        (if ([0.8, 0.9, 0.7] : List ℚ) = [] then 0.5
         else ([0.8, 0.9, 0.7] : List ℚ).sum /
           ((([0.8, 0.9, 0.7] : List ℚ).length : ℚ))) * 0.4 ∧
      s.factors
        = (if ((3 : ℚ) / ((5 : Nat) : ℚ)) = 1 then ["workflow_completed"]
           else if ((3 : ℚ) / ((5 : Nat) : ℚ)) > 0.5 then
             ["workflow_partially_completed"]
           else ["workflow_early_stage"]) ++
          (if (if ([0.8, 0.9, 0.7] : List ℚ) = [] then 0.5
              else ([0.8, 0.9, 0.7] : List ℚ).sum /
                ((([0.8, 0.9, 0.7] : List ℚ).length : ℚ))) > 0.8 then
             ["high_step_confidence"]
           else if (if ([0.8, 0.9, 0.7] : List ℚ) = [] then 0.5
               else ([0.8, 0.9, 0.7] : List ℚ).sum /
                 ((([0.8, 0.9, 0.7] : List ℚ).length : ℚ))) < 0.3 then
             ["low_step_confidence"]
           else [])) ∧
    ((calculate_workflow_confidence 3 5 [0.8, 0.9, 0.7]).toOption.map
      (fun s => s.value)) = some 0.68 ∧
    ((calculate_workflow_confidence 3 5 [0.8, 0.9, 0.7]).toOption.map
      (fun s => s.factors)) = some ["workflow_partially_completed"] := by
  refine ⟨workflow_confidence_spec.2.1 3 5 [0.8, 0.9, 0.7] (by norm_num)
    (by rw [if_neg (by simp)]; norm_num)
    (by rw [if_neg (by simp)]; norm_num), ?_, ?_⟩
  · norm_num +decide [calculate_workflow_confidence, ConfidenceScore.make,
      validate_confidence, Except.toOption]
  · norm_num +decide [calculate_workflow_confidence, ConfidenceScore.make,
      validate_confidence, Except.toOption]

/-- C2 fails as stated: supplying a weight list whose length differs from
the (empty) score list does not raise the length error; the empty-scores
fallback is returned before the length check. -/
theorem combine_empty_mismatched_weights_no_error :
    (∃ s, combine_confidence_scores [] (some [0.5]) = .ok s ∧ s.value = 0 ∧
      s.factors = ["no_scores_provided"]) ∧
    ([(0.5 : ℚ)].length ≠ ([] : List ConfidenceScore).length) := by
  constructor
  · obtain ⟨s, hs, hval, hfac, -⟩ :=
      make_ok_of_bounds 0 ["no_scores_provided"]
        [("method", MetaVal.str "combined_confidence")] le_rfl zero_le_one
    exact ⟨s, hs, hval, hfac⟩
  · simp

/-- C2 (amended): the invalid-argument error with message "Number of
weights must match number of scores" is raised if and only if the score
sequence is non-empty and a weight sequence with a different length is
supplied; an empty score sequence returns the fallback score even with
mismatched weights, because the empty-input check runs before the length
check; every call either produces a score, raises the length error, or
raises a ValidationError when the combined value leaves [0, 1] at
construction. -/
theorem combine_error_iff_spec :
    (∀ weights, ∃ s, combine_confidence_scores [] weights = .ok s ∧
      s.value = 0 ∧ s.factors = ["no_scores_provided"]) ∧
    (∀ (scores : List ConfidenceScore) (weights : Option (List ℚ)),
      (combine_confidence_scores scores weights
          = .error "Number of weights must match number of scores"
        ↔ scores ≠ [] ∧
          ∃ ws, weights = some ws ∧ ws.length ≠ scores.length) ∧
      ((∃ s, combine_confidence_scores scores weights = .ok s) ∨
        combine_confidence_scores scores weights
          = .error "Number of weights must match number of scores" ∨
        combine_confidence_scores scores weights
          = .error "ValidationError")) := by
  constructor
  · intro weights
    obtain ⟨s, hs, hval, hfac, -⟩ :=
      make_ok_of_bounds 0 ["no_scores_provided"]
        [("method", MetaVal.str "combined_confidence")] le_rfl zero_le_one
    exact ⟨s, hs, hval, hfac⟩
  intro scores weights
  rcases scores with _ | ⟨a, l⟩
  · obtain ⟨s, hs, -, -, -⟩ :=
      make_ok_of_bounds 0 ["no_scores_provided"]
        [("method", MetaVal.str "combined_confidence")] le_rfl zero_le_one
    have hok : combine_confidence_scores [] weights = .ok s := hs
    constructor
    · rw [hok]
      simp
    · exact Or.inl ⟨s, hok⟩
  · rcases weights with _ | ws
    · have hred : combine_confidence_scores (a :: l) none
          = combine_confidence_scores (a :: l)
            (some (List.replicate (a :: l).length
              (1 / (((a :: l).length : Nat) : ℚ)))) := rfl
      have heq := combine_eq_of_len (a :: l) (by simp)
        (List.replicate (a :: l).length (1 / (((a :: l).length : Nat) : ℚ)))
        (List.length_replicate _ _)
      constructor
      · rw [hred, heq]
        simp [make_ne_len_error]
      · rcases make_ok_or_validation_error
          ((List.zipWith (fun s w => s.value * w) (a :: l) _).sum) _ _ with
          ⟨s, hs⟩ | hs
        · exact Or.inl ⟨s, by rw [hred, heq]; exact hs⟩
        · exact Or.inr (Or.inr (by rw [hred, heq]; exact hs))
    · by_cases hlen : ws.length = (a :: l).length
      · have heq := combine_eq_of_len (a :: l) (by simp) ws hlen
        constructor
        · rw [heq]
          simp [make_ne_len_error, hlen]
        · rcases make_ok_or_validation_error
            ((List.zipWith (fun s w => s.value * w) (a :: l) _).sum) _ _ with
            ⟨s, hs⟩ | hs
          · exact Or.inl ⟨s, by rw [heq]; exact hs⟩
          · exact Or.inr (Or.inr (by rw [heq]; exact hs))
      · have hlen2 : ws.length ≠ l.length + 1 := by simpa using hlen
        have herr : combine_confidence_scores (a :: l) (some ws)
            = .error "Number of weights must match number of scores" := by
          rw [combine_confidence_scores, if_neg (by simp),
            Option.getD_some, if_pos hlen]
        constructor
        · rw [herr]
          simp [hlen2]
        · exact Or.inr (Or.inl herr)

/-- C4 fails as stated: with scores of values 0.8 and 0.6 and supplied
weights [3, -2] (already summing to 1, so renormalization keeps them) the
weighted sum of component values is 1.2, and there the program raises a
ValidationError at construction instead of producing that combined
value. -/
theorem combine_negative_weights_validation_error :
    combine_confidence_scores
        [⟨0.8, [], [], by norm_num⟩, ⟨0.6, [], [], by norm_num⟩]
        (some [3, -2]) = .error "ValidationError" ∧
    ((⟨0.8, [], [], by norm_num⟩ : ConfidenceScore).value * 3
      + (⟨0.6, [], [], by norm_num⟩ : ConfidenceScore).value * (-2) : ℚ)
      = 1.2 := by
  refine ⟨?_, by norm_num⟩
  norm_num +decide [combine_confidence_scores, ConfidenceScore.make,
    validate_confidence, List.zipWith]

/-- C4 (amended): an empty sequence yields value 0.0 with factors
["no_scores_provided"]; omitted weights are replaced by the equal weights
1/n; supplied weights are renormalized by their sum unless that sum is
zero, in which case they are used as-is; when the weighted sum of
component values lies in [0, 1] the combined score has exactly that value,
its factors are the concatenation of the component factor lists in input
order, and the used weights are recorded in the metadata; when the
weighted sum leaves [0, 1], construction raises a ValidationError and no
score is produced; combining values 0.8 and 0.6 without weights yields
value 0.7, factors in order, and metadata weights [0.5, 0.5]. -/
theorem combine_scores_spec :
    (∀ weights, ∃ s, combine_confidence_scores [] weights = .ok s ∧
      s.value = 0 ∧ s.factors = ["no_scores_provided"]) ∧
    (∀ scores : List ConfidenceScore, scores ≠ [] →
      combine_confidence_scores scores none
        = combine_confidence_scores scores
            (some (List.replicate scores.length
              (1 / (scores.length : ℚ))))) ∧
    (∀ (scores : List ConfidenceScore) (ws : List ℚ),
      scores ≠ [] → ws.length = scores.length → ws.sum ≠ 0 →
      0 ≤ (List.zipWith (fun sc w => sc.value * w) scores
        (ws.map (fun w => w / ws.sum))).sum →
      (List.zipWith (fun sc w => sc.value * w) scores
        (ws.map (fun w => w / ws.sum))).sum ≤ 1 →
      ∃ s, combine_confidence_scores scores (some ws) = .ok s ∧
        s.value = (List.zipWith (fun sc w => sc.value * w) scores
          (ws.map (fun w => w / ws.sum))).sum ∧
        s.factors = (scores.map (fun sc => sc.factors)).flatten ∧
        ("weights", MetaVal.ratList (ws.map (fun w => w / ws.sum)))
          ∈ s.metadata) ∧
    (∀ (scores : List ConfidenceScore) (ws : List ℚ),
      scores ≠ [] → ws.length = scores.length → ws.sum = 0 →
      0 ≤ (List.zipWith (fun sc w => sc.value * w) scores ws).sum →
      (List.zipWith (fun sc w => sc.value * w) scores ws).sum ≤ 1 →
      ∃ s, combine_confidence_scores scores (some ws) = .ok s ∧
        s.value = (List.zipWith (fun sc w => sc.value * w) scores ws).sum ∧
        s.factors = (scores.map (fun sc => sc.factors)).flatten ∧
        ("weights", MetaVal.ratList ws) ∈ s.metadata) ∧
    (∀ (scores : List ConfidenceScore) (ws : List ℚ),
      scores ≠ [] → ws.length = scores.length →
      ¬(0 ≤ (List.zipWith (fun sc w => sc.value * w) scores
          (if ws.sum ≠ 0 then ws.map (fun w => w / ws.sum) else ws)).sum ∧
        (List.zipWith (fun sc w => sc.value * w) scores
          (if ws.sum ≠ 0 then ws.map (fun w => w / ws.sum) else ws)).sum
          ≤ 1) →
      combine_confidence_scores scores (some ws)
        = .error "ValidationError") ∧
    (((combine_confidence_scores
        [⟨0.8, ["f1"], [], by norm_num⟩, ⟨0.6, ["f2"], [], by norm_num⟩]
        none).toOption.map (fun s => s.value)) = some 0.7 ∧
      ((combine_confidence_scores
        [⟨0.8, ["f1"], [], by norm_num⟩, ⟨0.6, ["f2"], [], by norm_num⟩]
        none).toOption.map (fun s => s.factors)) = some ["f1", "f2"] ∧
      ((combine_confidence_scores
        [⟨0.8, ["f1"], [], by norm_num⟩, ⟨0.6, ["f2"], [], by norm_num⟩]
        none).toOption.map (fun s => s.metadata))
        = some [("method", MetaVal.str "combined_confidence"),
            ("score_count", MetaVal.nat 2),
            ("weights", MetaVal.ratList [0.5, 0.5]),
            ("individual_scores", MetaVal.ratList [0.8, 0.6])]) := by
  refine ⟨?_, fun scores _ => rfl,
    fun scores ws hne hlen hsum h0 h1 => ?_,
    fun scores ws hne hlen hsum h0 h1 => ?_,
    fun scores ws hne hlen hout => ?_, ?_, ?_, ?_⟩
  · intro weights
    obtain ⟨s, hs, hval, hfac, -⟩ :=
      make_ok_of_bounds 0 ["no_scores_provided"]
        [("method", MetaVal.str "combined_confidence")] le_rfl zero_le_one
    exact ⟨s, hs, hval, hfac⟩
  · rw [combine_eq_of_len scores hne ws hlen, if_pos hsum]
    obtain ⟨s, hs, hval, hfac, hmd⟩ := make_ok_of_bounds _ _ _ h0 h1
    refine ⟨s, hs, hval, ?_, ?_⟩
    · rw [hfac, foldl_append_factors scores []]
      simp
    · rw [hmd]
      simp
  · rw [combine_eq_of_len scores hne ws hlen, if_neg (by simp [hsum])]
    obtain ⟨s, hs, hval, hfac, hmd⟩ := make_ok_of_bounds _ _ _ h0 h1
    refine ⟨s, hs, hval, ?_, ?_⟩
    · rw [hfac, foldl_append_factors scores []]
      simp
    · rw [hmd]
      simp
  · rw [combine_eq_of_len scores hne ws hlen]
    exact make_error_of_out _ _ hout
  · norm_num +decide [combine_confidence_scores, ConfidenceScore.make,
      validate_confidence, List.zipWith, List.replicate, Except.toOption]
  · norm_num +decide [combine_confidence_scores, ConfidenceScore.make,
      validate_confidence, List.zipWith, List.replicate, Except.toOption]
  · norm_num +decide [combine_confidence_scores, ConfidenceScore.make,
      validate_confidence, List.zipWith, List.replicate, Except.toOption]

/-- Witness for C4 (amended): the equal-weights, renormalized, zero-sum and
out-of-range clauses instantiated on small concrete inputs. -/
theorem combine_scores_spec_witness :
    (combine_confidence_scores [⟨1, [], [], by norm_num⟩] none
      = combine_confidence_scores [⟨1, [], [], by norm_num⟩]
          (some (List.replicate
            ([(⟨1, [], [], by norm_num⟩ : ConfidenceScore)].length)
            (1 / (([(⟨1, [], [], by norm_num⟩ :
              ConfidenceScore)].length : Nat) : ℚ))))) ∧
    (∃ s, combine_confidence_scores [⟨1, [], [], by norm_num⟩]
        (some [2]) = .ok s ∧
      s.value = (List.zipWith (fun sc w => sc.value * w)
          [(⟨1, [], [], by norm_num⟩ : ConfidenceScore)]
          ([(2 : ℚ)].map (fun w => w / [(2 : ℚ)].sum))).sum ∧
      s.factors = ([(⟨1, [], [], by norm_num⟩ :
          ConfidenceScore)].map (fun sc => sc.factors)).flatten ∧
      ("weights", MetaVal.ratList ([(2 : ℚ)].map (fun w => w / [(2 : ℚ)].sum)))
        ∈ s.metadata) ∧
    (∃ s, combine_confidence_scores [⟨1, [], [], by norm_num⟩]
        (some [0]) = .ok s ∧
      s.value = (List.zipWith (fun sc w => sc.value * w)
          [(⟨1, [], [], by norm_num⟩ : ConfidenceScore)] [(0 : ℚ)]).sum ∧
      s.factors = ([(⟨1, [], [], by norm_num⟩ :
          ConfidenceScore)].map (fun sc => sc.factors)).flatten ∧
      ("weights", MetaVal.ratList [(0 : ℚ)]) ∈ s.metadata) ∧
    (combine_confidence_scores
        [⟨1, [], [], by norm_num⟩, ⟨0, [], [], by norm_num⟩]
        (some [-1, 1]) = .error "ValidationError") :=
  ⟨combine_scores_spec.2.1 [⟨1, [], [], by norm_num⟩] (by simp),
   combine_scores_spec.2.2.1 [⟨1, [], [], by norm_num⟩] [2]
     (by simp) (by simp) (by norm_num)
     (by norm_num [List.zipWith]) (by norm_num [List.zipWith]),
   combine_scores_spec.2.2.2.1 [⟨1, [], [], by norm_num⟩] [0]
     (by simp) (by simp) (by norm_num)
     (by norm_num [List.zipWith]) (by norm_num [List.zipWith]),
   combine_scores_spec.2.2.2.2.1
     [⟨1, [], [], by norm_num⟩, ⟨0, [], [], by norm_num⟩] [-1, 1]
     (by simp) (by simp)
     (by norm_num +decide [List.zipWith])⟩

/-! Helper lemmas for the convex-combination bound on combined scores. -/

lemma sum_zipWith_le (ub : ℚ) :
    ∀ (vs ws : List ℚ), vs.length = ws.length →
      (∀ w ∈ ws, 0 ≤ w) → (∀ v ∈ vs, v ≤ ub) →
      (List.zipWith (fun v w => v * w) vs ws).sum ≤ ub * ws.sum := by
  intro vs
  induction vs with
  | nil =>
    intro ws hlen _ _
    have : ws = [] := by
      cases ws with
      | nil => rfl
      | cons w t => simp at hlen
    simp [this]
  | cons v vt ih =>
    intro ws hlen hw hv
    cases ws with
    | nil => simp at hlen
    | cons w wt =>
      simp only [List.zipWith_cons_cons, List.sum_cons]
      have h1 : v * w ≤ ub * w :=
        mul_le_mul_of_nonneg_right (hv v (by simp)) (hw w (by simp))
      have h2 : (List.zipWith (fun v w => v * w) vt wt).sum ≤ ub * wt.sum :=
        ih wt (by simpa using hlen) (fun x hx => hw x (by simp [hx]))
          (fun x hx => hv x (by simp [hx]))
      calc v * w + (List.zipWith (fun v w => v * w) vt wt).sum
          ≤ ub * w + ub * wt.sum := add_le_add h1 h2
        _ = ub * (w + wt.sum) := by ring
        _ = ub * (w :: wt).sum := by simp

lemma le_sum_zipWith (lb : ℚ) :
    ∀ (vs ws : List ℚ), vs.length = ws.length →
      (∀ w ∈ ws, 0 ≤ w) → (∀ v ∈ vs, lb ≤ v) →
      lb * ws.sum ≤ (List.zipWith (fun v w => v * w) vs ws).sum := by
  intro vs
  induction vs with
  | nil =>
    intro ws hlen _ _
    have : ws = [] := by
      cases ws with
      | nil => rfl
      | cons w t => simp at hlen
    simp [this]
  | cons v vt ih =>
    intro ws hlen hw hv
    cases ws with
    | nil => simp at hlen
    | cons w wt =>
      simp only [List.zipWith_cons_cons, List.sum_cons]
      have h1 : lb * w ≤ v * w :=
        mul_le_mul_of_nonneg_right (hv v (by simp)) (hw w (by simp))
      have h2 : lb * wt.sum ≤ (List.zipWith (fun v w => v * w) vt wt).sum :=
        ih wt (by simpa using hlen) (fun x hx => hw x (by simp [hx]))
          (fun x hx => hv x (by simp [hx]))
      calc lb * (w :: wt).sum = lb * w + lb * wt.sum := by simp; ring
        _ ≤ v * w + (List.zipWith (fun v w => v * w) vt wt).sum :=
            add_le_add h1 h2

lemma foldl_min_le_init (l : List ℚ) : ∀ d : ℚ, l.foldl min d ≤ d := by
  induction l with
  | nil => intro d; simp
  | cons x t ih =>
    intro d
    exact (ih (min d x)).trans (min_le_left d x)

lemma foldl_min_le_mem (l : List ℚ) :
    ∀ (d x : ℚ), x ∈ l → l.foldl min d ≤ x := by
  induction l with
  | nil => intro d x hx; simp at hx
  | cons y t ih =>
    intro d x hx
    rcases List.mem_cons.mp hx with h | h
    · subst h
      exact (foldl_min_le_init t (min d x)).trans (min_le_right d x)
    · exact ih (min d y) x h

lemma le_foldl_min (l : List ℚ) :
    ∀ (d c : ℚ), c ≤ d → (∀ x ∈ l, c ≤ x) → c ≤ l.foldl min d := by
  induction l with
  | nil => intro d c hd _; simpa using hd
  | cons y t ih =>
    intro d c hd hl
    exact ih (min d y) c (le_min hd (hl y (by simp)))
      (fun x hx => hl x (by simp [hx]))

lemma init_le_foldl_max (l : List ℚ) : ∀ d : ℚ, d ≤ l.foldl max d := by
  induction l with
  | nil => intro d; simp
  | cons x t ih =>
    intro d
    exact (le_max_left d x).trans (ih (max d x))

lemma mem_le_foldl_max (l : List ℚ) :
    ∀ (d x : ℚ), x ∈ l → x ≤ l.foldl max d := by
  induction l with
  | nil => intro d x hx; simp at hx
  | cons y t ih =>
    intro d x hx
    rcases List.mem_cons.mp hx with h | h
    · subst h
      exact (le_max_right d x).trans (init_le_foldl_max t (max d x))
    · exact ih (max d y) x h

lemma foldl_max_le (l : List ℚ) :
    ∀ (d c : ℚ), d ≤ c → (∀ x ∈ l, x ≤ c) → l.foldl max d ≤ c := by
  induction l with
  | nil => intro d c hd _; simpa using hd
  | cons y t ih =>
    intro d c hd hl
    exact ih (max d y) c (max_le hd (hl y (by simp)))
      (fun x hx => hl x (by simp [hx]))

/-- Core bound: combining a non-empty score list with non-negative weights
of positive sum yields a score whose value is trapped between any bounds
enclosing all the component values within [0, 1]; in particular the
weighted sum stays in [0, 1], so construction succeeds. -/
lemma combine_value_bounds (scores : List ConfidenceScore)
    (hne : scores ≠ []) (ws : List ℚ) (hlen : ws.length = scores.length)
    (hnn : ∀ w ∈ ws, 0 ≤ w) (hpos : 0 < ws.sum)
    (lb ub : ℚ) (hlb0 : 0 ≤ lb) (hub1 : ub ≤ 1)
    (hlb : ∀ sc ∈ scores, lb ≤ sc.value)
    (hub : ∀ sc ∈ scores, sc.value ≤ ub) :
    ∃ s, combine_confidence_scores scores (some ws) = .ok s ∧
      lb ≤ s.value ∧ s.value ≤ ub := by
  have hsumne : ws.sum ≠ 0 := ne_of_gt hpos
  have hzip : List.zipWith (fun s w => s.value * w) scores
        (ws.map (fun w => w / ws.sum))
      = List.zipWith (fun v w => v * w)
          (scores.map (fun s => s.value)) (ws.map (fun w => w / ws.sum)) :=
    (List.zipWith_map_left scores (ws.map (fun w => w / ws.sum))
      (fun s => s.value) (fun v w => v * w)).symm
  have hnlen : (scores.map (fun s => s.value)).length
      = (ws.map (fun w => w / ws.sum)).length := by simp [hlen]
  have hnnn : ∀ w ∈ ws.map (fun w => w / ws.sum), 0 ≤ w := by
    intro w hw2
    obtain ⟨x, hx, rfl⟩ := List.mem_map.mp hw2
    exact div_nonneg (hnn x hx) hpos.le
  have hnsum : (ws.map (fun w => w / ws.sum)).sum = 1 := by
    rw [sum_map_div, div_self hsumne]
  have hvub : ∀ v ∈ scores.map (fun s => s.value), v ≤ ub := by
    intro v hv
    obtain ⟨sc, hsc, rfl⟩ := List.mem_map.mp hv
    exact hub sc hsc
  have hvlb : ∀ v ∈ scores.map (fun s => s.value), lb ≤ v := by
    intro v hv
    obtain ⟨sc, hsc, rfl⟩ := List.mem_map.mp hv
    exact hlb sc hsc
  have hup : (List.zipWith (fun s w => s.value * w) scores
      (ws.map (fun w => w / ws.sum))).sum ≤ ub := by
    rw [hzip]
    calc (List.zipWith (fun v w => v * w) (scores.map (fun s => s.value))
          (ws.map (fun w => w / ws.sum))).sum
        ≤ ub * (ws.map (fun w => w / ws.sum)).sum :=
          sum_zipWith_le ub _ _ hnlen hnnn hvub
      _ = ub := by rw [hnsum, mul_one]
  have hdown : lb ≤ (List.zipWith (fun s w => s.value * w) scores
      (ws.map (fun w => w / ws.sum))).sum := by
    rw [hzip]
    calc lb = lb * (ws.map (fun w => w / ws.sum)).sum := by
          rw [hnsum, mul_one]
      _ ≤ (List.zipWith (fun v w => v * w) (scores.map (fun s => s.value))
          (ws.map (fun w => w / ws.sum))).sum :=
          le_sum_zipWith lb _ _ hnlen hnnn hvlb
  rw [combine_eq_of_len scores hne ws hlen, if_pos hsumne]
  obtain ⟨s, hs, hval, -, -⟩ := make_ok_of_bounds _ _ _
    (hlb0.trans hdown) (hup.trans hub1)
  exact ⟨s, hs, by rw [hval]; exact hdown, by rw [hval]; exact hup⟩

/-- C9: for a non-empty score list, with weights omitted or all supplied
weights non-negative with a positive sum, the combined value lies between
the minimum and the maximum of the input values: the renormalized weights
are non-negative and sum to 1, so the result is a convex combination. -/
theorem combine_convex_combination_bounds :
    ∀ (s₀ : ConfidenceScore) (rest : List ConfidenceScore)
      (weights : Option (List ℚ)),
      (weights = none ∨ ∃ ws, weights = some ws ∧
        ws.length = (s₀ :: rest).length ∧
        (∀ w ∈ ws, 0 ≤ w) ∧ 0 < ws.sum) →
      ∃ s, combine_confidence_scores (s₀ :: rest) weights = .ok s ∧
        (rest.map (fun x => x.value)).foldl min s₀.value ≤ s.value ∧
        s.value ≤ (rest.map (fun x => x.value)).foldl max s₀.value := by
  intro s₀ rest weights hw
  have hlb0 : 0 ≤ (rest.map (fun x => x.value)).foldl min s₀.value :=
    le_foldl_min _ _ _ s₀.valid.1 (fun x hx => by
      obtain ⟨sc, hsc, rfl⟩ := List.mem_map.mp hx
      exact sc.valid.1)
  have hub1 : (rest.map (fun x => x.value)).foldl max s₀.value ≤ 1 :=
    foldl_max_le _ _ _ s₀.valid.2 (fun x hx => by
      obtain ⟨sc, hsc, rfl⟩ := List.mem_map.mp hx
      exact sc.valid.2)
  have hlb : ∀ sc ∈ s₀ :: rest,
      (rest.map (fun x => x.value)).foldl min s₀.value ≤ sc.value := by
    intro sc hsc
    rcases List.mem_cons.mp hsc with h | h
    · subst h
      exact foldl_min_le_init _ _
    · exact foldl_min_le_mem _ _ _ (List.mem_map_of_mem _ h)
  have hub : ∀ sc ∈ s₀ :: rest,
      sc.value ≤ (rest.map (fun x => x.value)).foldl max s₀.value := by
    intro sc hsc
    rcases List.mem_cons.mp hsc with h | h
    · subst h
      exact init_le_foldl_max _ _
    · exact mem_le_foldl_max _ _ _ (List.mem_map_of_mem _ h)
  rcases hw with rfl | ⟨ws, rfl, hlen, hnn, hpos⟩
  · have hcast : (((s₀ :: rest).length : Nat) : ℚ) ≠ 0 :=
      Nat.cast_ne_zero.mpr (by simp)
    refine combine_value_bounds (s₀ :: rest) (by simp)
      (List.replicate (s₀ :: rest).length
        (1 / (((s₀ :: rest).length : Nat) : ℚ)))
      (List.length_replicate _ _) ?_ ?_ _ _ hlb0 hub1 hlb hub
    · intro w hw2
      rw [List.eq_of_mem_replicate hw2]
      exact div_nonneg zero_le_one (Nat.cast_nonneg _)
    · rw [List.sum_replicate, nsmul_eq_mul, mul_one_div, div_self hcast]
      norm_num
  · exact combine_value_bounds (s₀ :: rest) (by simp) ws hlen hnn hpos
      _ _ hlb0 hub1 hlb hub

/-- Witness for C9: combining scores of values 0.8 and 0.6 with omitted
weights stays between the minimum and maximum input values. -/
theorem combine_convex_combination_bounds_witness :
    ∃ s, combine_confidence_scores
        [⟨0.8, [], [], by norm_num⟩, ⟨0.6, [], [], by norm_num⟩]
        none = .ok s ∧
      ([(⟨0.6, [], [], by norm_num⟩ : ConfidenceScore)].map
        (fun x => x.value)).foldl min
          (⟨0.8, [], [], by norm_num⟩ : ConfidenceScore).value ≤ s.value ∧
      s.value ≤ ([(⟨0.6, [], [], by norm_num⟩ : ConfidenceScore)].map
        (fun x => x.value)).foldl max
          (⟨0.8, [], [], by norm_num⟩ : ConfidenceScore).value :=
  combine_convex_combination_bounds ⟨0.8, [], [], by norm_num⟩
    [⟨0.6, [], [], by norm_num⟩] none (Or.inl rfl)
